import Mathlib

/-!
Shallow embedding of the procedural point-formation engine of `src/index.tsx`
(the holiday-tree scene): the two point generators (`randomInSphere`,
`randomOnTree`), the foliage vertex shader's formation blend
(delay / smoothstep / easeOutCubic / mix), the animation driver
(`THREE.MathUtils.lerp` with factor `delta * 1.5`), and the per-frame
ornament update (`THREE.Vector3.lerp` with a per-ornament speed).

Numbers are idealised as exact rationals or reals; the one place where
JavaScript float semantics matter (the `0/0 = NaN` produced by
`randomOnTree` at `height = 0`) is modelled explicitly with a JS-value
type `JSVal` that tracks NaN and the infinities.
-/

/-- GLSL `clamp(x, lo, hi) = min(max(x, lo), hi)`. -/
def clampF {α : Type} [LinearOrderedField α] (x lo hi : α) : α := min (max x lo) hi

/-- The cubic Hermite polynomial `t*t*(3 - 2*t)` applied by `smoothstep`. -/
def hermiteF {α : Type} [LinearOrderedField α] (t : α) : α := t * t * (3 - 2 * t)

/-- GLSL `smoothstep(e0, e1, x)`: clamp `(x - e0)/(e1 - e0)` to `[0,1]`,
then apply the cubic Hermite `t*t*(3 - 2*t)`. -/
def smoothstepF {α : Type} [LinearOrderedField α] (e0 e1 x : α) : α :=
  hermiteF (clampF ((x - e0) / (e1 - e0)) 0 1)

/-- `easeOutCubic` from the foliage vertex shader: `1.0 - pow(1.0 - x, 3.0)`. -/
def easeOutCubicF {α : Type} [LinearOrderedField α] (x : α) : α := 1 - (1 - x) ^ 3

/-- Per-particle delay of the foliage vertex shader:
`float delay = aTreePos.y * 0.05 + 0.5;`. -/
def delayF {α : Type} [LinearOrderedField α] (treeY : α) : α := treeY * 0.05 + 0.5

/-- The pre-smoothstep argument of the shader's local progress:
`(t * (1.0 + delay)) - (delay * (1.0 - t))`. -/
def progressArgF {α : Type} [LinearOrderedField α] (treeY t : α) : α :=
  t * (1 + delayF treeY) - delayF treeY * (1 - t)

/-- `float localProgress = smoothstep(0.0, 1.0, (t*(1.0+delay)) - (delay*(1.0-t)));`. -/
def localProgressF {α : Type} [LinearOrderedField α] (treeY t : α) : α :=
  smoothstepF 0 1 (progressArgF treeY t)

/-- GLSL `mix(x, y, a) = x*(1-a) + y*a`. -/
def mixF {α : Type} [LinearOrderedField α] (x y a : α) : α := x * (1 - a) + y * a

/-- The Formation Blender of the vertex shader:
`vec3 finalPos = mix(aScatterPos, aTreePos, easeOutCubic(localProgress));`
(before the breathing perturbation).  The per-particle delay depends only on
the formed position's y component; the formed height and the random seed do
not enter this computation in the source. -/
def blendF {α : Type} [LinearOrderedField α] (s f : α × α × α) (t : α) : α × α × α :=
  (mixF s.1 f.1 (easeOutCubicF (localProgressF f.2.1 t)),
   mixF s.2.1 f.2.1 (easeOutCubicF (localProgressF f.2.1 t)),
   mixF s.2.2 f.2.2 (easeOutCubicF (localProgressF f.2.1 t)))

/-- `THREE.MathUtils.lerp(x, y, t) = (1 - t) * x + t * y` — the three.js
helper used by the animation driver.  Note: three.js does NOT clamp `t`. -/
def mathUtilsLerp (x y t : ℚ) : ℚ := (1 - t) * x + t * y

/-- One tick of the animation driver (`FoliageSystem.useFrame`):
`progress.current = THREE.MathUtils.lerp(progress.current, target, delta * 1.5);`. -/
def tick (p target dt : ℚ) : ℚ := mathUtilsLerp p target (dt * 1.5)

/-- Progress after `n` ticks starting from `0` with target `1` and fixed `dt`. -/
def progressSeq (dt : ℚ) : ℕ → ℚ
  | 0 => 0
  | n + 1 => tick (progressSeq dt n) 1 dt

/-- `THREE.Vector3.lerp(v, alpha)`: componentwise `this += (v - this) * alpha`. -/
def vector3Lerp (p v : ℚ × ℚ × ℚ) (alpha : ℚ) : ℚ × ℚ × ℚ :=
  (p.1 + (v.1 - p.1) * alpha, p.2.1 + (v.2.1 - p.2.1) * alpha,
   p.2.2 + (v.2.2 - p.2.2) * alpha)

/-- Per-ornament speed, fixed at creation: `speed: Math.random() * 0.05 + 0.02`. -/
def ornamentSpeed (u : ℚ) : ℚ := u * 0.05 + 0.02

/-- One per-frame ornament position update (`OrnamentSystem.useFrame`):
`o.currentPos.lerp(target, o.speed);`. -/
def ornamentStep (p target : ℚ × ℚ × ℚ) (speed : ℚ) : ℚ × ℚ × ℚ :=
  vector3Lerp p target speed

/-- Squared Euclidean distance on rational triples. -/
def distSq (a b : ℚ × ℚ × ℚ) : ℚ :=
  (a.1 - b.1) ^ 2 + (a.2.1 - b.2.1) ^ 2 + (a.2.2 - b.2.2) ^ 2

/-- A JavaScript IEEE-754 double, idealised: finite values are exact reals
(rounding is ignored), while NaN and the two infinities are tracked exactly.
This is needed because `randomOnTree` evaluates `y / height`, which in
JavaScript is `0/0 = NaN` when `height = 0`. -/
inductive JSVal where
  | fin : ℝ → JSVal
  | nan : JSVal
  | posInf : JSVal
  | negInf : JSVal

/-- JavaScript addition on `JSVal`. -/
noncomputable def jadd : JSVal → JSVal → JSVal
  | .fin x, .fin y => .fin (x + y)
  | .fin _, .posInf => .posInf
  | .fin _, .negInf => .negInf
  | .posInf, .fin _ => .posInf
  | .negInf, .fin _ => .negInf
  | .posInf, .posInf => .posInf
  | .negInf, .negInf => .negInf
  | _, _ => .nan

/-- JavaScript negation on `JSVal`. -/
noncomputable def jneg : JSVal → JSVal
  | .fin x => .fin (-x)
  | .posInf => .negInf
  | .negInf => .posInf
  | .nan => .nan

/-- JavaScript subtraction on `JSVal`. -/
noncomputable def jsub (a b : JSVal) : JSVal := jadd a (jneg b)

/-- JavaScript multiplication on `JSVal`. -/
noncomputable def jmul : JSVal → JSVal → JSVal
  | .fin x, .fin y => .fin (x * y)
  | .fin x, .posInf => if x = 0 then .nan else if 0 < x then .posInf else .negInf
  | .fin x, .negInf => if x = 0 then .nan else if 0 < x then .negInf else .posInf
  | .posInf, .fin y => if y = 0 then .nan else if 0 < y then .posInf else .negInf
  | .negInf, .fin y => if y = 0 then .nan else if 0 < y then .negInf else .posInf
  | .posInf, .posInf => .posInf
  | .negInf, .negInf => .posInf
  | .posInf, .negInf => .negInf
  | .negInf, .posInf => .negInf
  | _, _ => .nan

/-- JavaScript division on `JSVal` (signed zeros idealised to `+0`, so
`x/0` follows the sign of `x`, and `0/0 = NaN`). -/
noncomputable def jdiv : JSVal → JSVal → JSVal
  | .fin x, .fin y =>
      if y = 0 then (if x = 0 then .nan else if 0 < x then .posInf else .negInf)
      else .fin (x / y)
  | .fin _, .posInf => .fin 0
  | .fin _, .negInf => .fin 0
  | .posInf, .fin y => if 0 ≤ y then .posInf else .negInf
  | .negInf, .fin y => if 0 ≤ y then .negInf else .posInf
  | _, _ => .nan

/-- JavaScript `Math.pow(x, 1.2)` on `JSVal`: NaN for a negative finite base
(non-integer exponent), `x ^ 1.2` via the real power otherwise. -/
noncomputable def jpow12 : JSVal → JSVal
  | .fin x => if x < 0 then .nan else .fin (x ^ (1.2 : ℝ))
  | .posInf => .posInf
  | .negInf => .posInf
  | .nan => .nan

/-- JavaScript `Math.sin` on `JSVal` (`NaN` on non-finite input). -/
noncomputable def jsin : JSVal → JSVal
  | .fin x => .fin (Real.sin x)
  | _ => .nan

/-- JavaScript `Math.cos` on `JSVal` (`NaN` on non-finite input). -/
noncomputable def jcos : JSVal → JSVal
  | .fin x => .fin (Real.cos x)
  | _ => .nan

/-- `Math.PI` as a `JSVal`. -/
noncomputable def jpi : JSVal := .fin Real.pi

/-- The formation-point generator `randomOnTree` of `src/index.tsx`, with the
two `Math.random()` draws made explicit (`uY` for the height sample, `uTheta`
for the azimuth sample):

    const minH = height * yMinRatio;
    const maxH = height * yMaxRatio;
    const range = maxH - minH;
    const y = Math.random() * range + minH;
    const percentage = 1 - (y / height);
    const r = radiusBase * Math.pow(percentage, 1.2);
    const theta = Math.random() * Math.PI * 2;
    const layerNoise = Math.sin(y * 3.0) * 0.15;
    return ((r + layerNoise) * cos(theta), y - height / 2, (r + layerNoise) * sin(theta))
-/
noncomputable def randomOnTree (height radiusBase yMinRatio yMaxRatio uY uTheta : JSVal) :
    JSVal × JSVal × JSVal :=
  let minH := jmul height yMinRatio
  let maxH := jmul height yMaxRatio
  let range := jsub maxH minH
  let y := jadd (jmul uY range) minH
  let percentage := jsub (.fin 1) (jdiv y height)
  let r := jmul radiusBase (jpow12 percentage)
  let theta := jmul (jmul uTheta jpi) (.fin 2)
  let layerNoise := jmul (jsin (jmul y (.fin 3))) (.fin 0.15)
  (jmul (jadd r layerNoise) (jcos theta),
   jsub y (jdiv height (.fin 2)),
   jmul (jadd r layerNoise) (jsin theta))

/-- One iteration of the particle-pool generation loop in
`FoliageSystem`'s `useMemo`: the tree destination of particle `i` is
`randomOnTree(TREE_HEIGHT, TREE_RADIUS)` (with the default band `0..1`).
The loop performs no validation of the configuration and has no error path. -/
noncomputable def generateParticleTreePos (treeHeight treeRadius uY uTheta : JSVal) :
    JSVal × JSVal × JSVal :=
  randomOnTree treeHeight treeRadius (.fin 0) (.fin 1) uY uTheta

/-- The particle-pool generation loop `for (let i = 0; i < count; i++) ...` of
`FoliageSystem`'s `useMemo`, restricted to the tree destinations: it runs
`count` times when `count > 0` and zero times otherwise, and never throws. -/
noncomputable def generatePoolTreePos (count : ℤ) (treeHeight treeRadius : JSVal)
    (uY uTheta : ℕ → JSVal) : List (JSVal × JSVal × JSVal) :=
  (List.range count.toNat).map (fun i => generateParticleTreePos treeHeight treeRadius (uY i) (uTheta i))

/-- The scatter-point generator `randomInSphere` of `src/index.tsx`, with the
three `Math.random()` draws made explicit (`u` for the azimuth, `v` for the
polar sample, `w` for the radius sample).  On its domain (`u, v, w ∈ [0,1)`)
no JavaScript special value can arise, so it is embedded directly over ℝ;
`Math.cbrt w` is the real cube root, `w ^ (1/3 : ℝ)` for `w ≥ 0`:

    const theta = 2 * Math.PI * u;
    const phi = Math.acos(2 * v - 1);
    const r = Math.cbrt(w) * radius;
    return (r * sin(phi) * cos(theta), r * sin(phi) * sin(theta), r * cos(phi))
-/
noncomputable def randomInSphere (radius u v w : ℝ) : ℝ × ℝ × ℝ :=
  (w ^ ((1 : ℝ)/3) * radius * Real.sin (Real.arccos (2 * v - 1)) * Real.cos (2 * Real.pi * u),
   w ^ ((1 : ℝ)/3) * radius * Real.sin (Real.arccos (2 * v - 1)) * Real.sin (2 * Real.pi * u),
   w ^ ((1 : ℝ)/3) * radius * Real.cos (Real.arccos (2 * v - 1)))

/-- GLSL `length` of a 3-vector. -/
noncomputable def length3 (v : ℝ × ℝ × ℝ) : ℝ := Real.sqrt (v.1 ^ 2 + v.2.1 ^ 2 + v.2.2 ^ 2)

/-- The full per-particle position computed by the foliage vertex shader:
the formation blend, plus the breathing perturbation
`finalPos += normalize(finalPos) * breath` that is applied only when
`uProgress > 0.8`, with `breath = sin(uTime * 2.0 + aRandom * 10.0) * 0.05`.
`aSize` and `aColorType` are listed because the shader receives them, but the
source uses them only for point size and colour, never for the position. -/
noncomputable def shaderFinalPos (aScatterPos aTreePos : ℝ × ℝ × ℝ)
    (uProgress uTime aRandom aSize aColorType : ℝ) : ℝ × ℝ × ℝ :=
  if 0.8 < uProgress then
    (fun base breath =>
      (base.1 + base.1 / length3 base * breath,
       base.2.1 + base.2.1 / length3 base * breath,
       base.2.2 + base.2.2 / length3 base * breath))
      (blendF aScatterPos aTreePos uProgress)
      (Real.sin (uTime * 2 + aRandom * 10) * 0.05)
  else blendF aScatterPos aTreePos uProgress

lemma smoothstep01_eq_one_of {α : Type} [LinearOrderedField α] {x : α} (h : 1 ≤ x) :
    smoothstepF 0 1 x = 1 := by
  have hx : clampF ((x - 0) / (1 - 0)) 0 1 = 1 := by
    unfold clampF
    rw [sub_zero, sub_zero, div_one]
    rw [max_eq_left (le_trans zero_le_one h), min_eq_right h]
  unfold smoothstepF hermiteF
  rw [hx]; ring

lemma smoothstep01_lt_one_of {α : Type} [LinearOrderedField α] {x : α} (h : x < 1) :
    smoothstepF 0 1 x < 1 := by
  unfold smoothstepF hermiteF clampF
  rw [sub_zero, sub_zero, div_one]
  rcases le_or_lt x 0 with h0 | h0
  · rw [max_eq_right h0, min_eq_left zero_le_one]
    norm_num
  · rw [max_eq_left h0.le, min_eq_left h.le]
    nlinarith [sq_nonneg (1 - x), h0, h]

lemma smoothstep01_eq_zero_of {α : Type} [LinearOrderedField α] {x : α} (h : x ≤ 0) :
    smoothstepF 0 1 x = 0 := by
  unfold smoothstepF hermiteF clampF
  rw [sub_zero, sub_zero, div_one]
  rw [max_eq_right h, min_eq_left zero_le_one]
  ring

lemma smoothstep01_pos_of {α : Type} [LinearOrderedField α] {x : α} (h : 0 < x) :
    0 < smoothstepF 0 1 x := by
  unfold smoothstepF hermiteF clampF
  rw [sub_zero, sub_zero, div_one]
  rw [max_eq_left h.le]
  rcases le_or_lt x 1 with h1 | h1
  · rw [min_eq_left h1]
    nlinarith
  · rw [min_eq_right h1.le]
    norm_num

lemma argOne_le_mono {d1 d2 t : ℚ} (hd1 : 0 ≤ d1) (hd : d1 ≤ d2)
    (h : 1 ≤ t * (1 + d1) - d1 * (1 - t)) : 1 ≤ t * (1 + d2) - d2 * (1 - t) := by
  have ht : 0 ≤ 2 * t - 1 := by nlinarith [mul_self_nonneg (1 - 2 * t)]
  nlinarith [mul_nonneg (sub_nonneg.mpr hd) ht]

lemma argPos_mono {d1 d2 t : ℚ} (hd1 : 0 ≤ d1) (hd : d1 ≤ d2)
    (h : 0 < t * (1 + d2) - d2 * (1 - t)) : 0 < t * (1 + d1) - d1 * (1 - t) := by
  nlinarith [mul_pos h (show (0 : ℚ) < 1 + 2 * d1 by linarith)]

lemma progressSeq_gap (dt : ℚ) : ∀ n, 1 - progressSeq dt n = (1 - dt * 1.5) ^ n := by
  intro n
  induction n with
  | zero => simp [progressSeq]
  | succ n ih =>
    have h : progressSeq dt (n + 1) = (1 - dt * 1.5) * progressSeq dt n + dt * 1.5 := by
      show tick (progressSeq dt n) 1 dt = _
      unfold tick mathUtilsLerp; ring
    rw [h, pow_succ, ← ih]; ring

/-- C1 counterexample: at `dt = 1` (which is `≥ 0`) the per-tick factor is
`1.5`, not capped at `1`: with `p = 0`, `target = 1` the code produces `3/2`,
while the claimed capped update would produce `1`. -/
theorem tick_cap_counterexample :
    tick 0 1 1 ≠ 0 + (1 - 0) * min 1 (1.5 * 1) := by
  norm_num [tick, mathUtilsLerp]

/-- C1 (amended): each tick updates progress by
`currentProgress += (targetProgress - currentProgress) * (rate*dt)` with
`rate = 1.5` and NO cap on the factor; the claimed `min(1, rate*dt)`-capped
formula holds exactly on those ticks where `rate*dt ≤ 1`. -/
theorem tick_update_formula (p target dt : ℚ) :
    tick p target dt = p + (target - p) * (1.5 * dt) ∧
    (dt * 1.5 ≤ 1 → tick p target dt = p + (target - p) * min 1 (1.5 * dt)) := by
  constructor
  · unfold tick mathUtilsLerp; ring
  · intro h
    rw [min_eq_right (by linarith)]
    unfold tick mathUtilsLerp; ring

/-- Witness for C1 at `p = 0`, `target = 1`, `dt = 1/3`. -/
theorem tick_update_formula_witness :
    ((1/3 : ℚ) * 1.5 ≤ 1) ∧
    tick 0 1 (1/3) = 0 + (1 - 0) * (1.5 * (1/3)) ∧
    tick 0 1 (1/3) = 0 + (1 - 0) * min 1 (1.5 * (1/3)) :=
  ⟨by norm_num, (tick_update_formula 0 1 (1/3)).1,
   (tick_update_formula 0 1 (1/3)).2 (by norm_num)⟩

/-- C2 counterexample: with fixed `dt = 1 > 0`, one tick from `0` toward
target `1` already exceeds `1` (it reaches `3/2`), so the sequence is not
contained in `[0,1]` for every fixed `dt > 0`. -/
theorem progressSeq_exceeds_one_counterexample : 1 < progressSeq 1 1 := by
  show (1 : ℚ) < tick (progressSeq 1 0) 1 1
  norm_num [progressSeq, tick, mathUtilsLerp]

/-- C2 (amended): for a fixed `dt` with `0 < dt` and `dt * 1.5 ≤ 1` (i.e.
`dt ≤ 2/3`), the progress sequence starting at `0` with target `1` stays in
`[0,1]`, is monotone nondecreasing, its gap to `1` is exactly
`(1 - dt*1.5)^n`, and it converges to `1`. -/
theorem progressSeq_monotone_bounded_tendsto (dt : ℚ) (h0 : 0 < dt) (h1 : dt * 1.5 ≤ 1) :
    (∀ n, 0 ≤ progressSeq dt n ∧ progressSeq dt n ≤ 1) ∧
    (∀ n, progressSeq dt n ≤ progressSeq dt (n + 1)) ∧
    (∀ n, 1 - progressSeq dt n = (1 - dt * 1.5) ^ n) ∧
    (∀ ε : ℚ, 0 < ε → ∃ N, ∀ n, N ≤ n → 1 - progressSeq dt n < ε) := by
  have hg0 : (0 : ℚ) ≤ 1 - dt * 1.5 := by linarith
  have hg1 : (1 : ℚ) - dt * 1.5 ≤ 1 := by nlinarith
  have hglt : (1 : ℚ) - dt * 1.5 < 1 := by nlinarith
  refine ⟨fun n => ?_, fun n => ?_, progressSeq_gap dt, fun ε hε => ?_⟩
  · constructor
    · have := progressSeq_gap dt n
      have hle : (1 - dt * 1.5) ^ n ≤ 1 := pow_le_one₀ hg0 hg1
      linarith
    · have := progressSeq_gap dt n
      have hnn : (0 : ℚ) ≤ (1 - dt * 1.5) ^ n := pow_nonneg hg0 n
      linarith
  · have ha := progressSeq_gap dt n
    have hb := progressSeq_gap dt (n + 1)
    have hstep : (1 - dt * 1.5) ^ (n + 1) ≤ (1 - dt * 1.5) ^ n :=
      pow_le_pow_of_le_one hg0 hg1 (Nat.le_succ n)
    linarith
  · obtain ⟨N, hN⟩ := exists_pow_lt_of_lt_one hε hglt
    refine ⟨N, fun n hn => ?_⟩
    have ha := progressSeq_gap dt n
    have hb : (1 - dt * 1.5) ^ n ≤ (1 - dt * 1.5) ^ N :=
      pow_le_pow_of_le_one hg0 hg1 hn
    linarith

/-- Witness for C2 at `dt = 1/2`. -/
theorem progressSeq_monotone_bounded_tendsto_witness :
    (0 : ℚ) < 1/2 ∧ (1/2 : ℚ) * 1.5 ≤ 1 ∧
    ((∀ n, 0 ≤ progressSeq (1/2) n ∧ progressSeq (1/2) n ≤ 1) ∧
     (∀ n, progressSeq (1/2) n ≤ progressSeq (1/2) (n + 1)) ∧
     (∀ n, 1 - progressSeq (1/2) n = (1 - (1/2) * 1.5) ^ n) ∧
     (∀ ε : ℚ, 0 < ε → ∃ N, ∀ n, N ≤ n → 1 - progressSeq (1/2) n < ε)) :=
  ⟨by norm_num, by norm_num,
   progressSeq_monotone_bounded_tendsto (1/2) (by norm_num) (by norm_num)⟩

/-- C10: every per-frame ornament update is
`currentPos.lerp(target, speed)` with a creation-time speed
`Math.random() * 0.05 + 0.02 ∈ [0.02, 0.07]`; the factor lies strictly
between 0 and 1, the new position is the convex combination
`(1 - speed) • old + speed • target` (hence lies on the segment and never
overshoots), and the squared distance to the target shrinks by the factor
`(1 - speed)^2`. -/
theorem ornamentStep_props (u : ℚ) (p target : ℚ × ℚ × ℚ)
    (hu0 : 0 ≤ u) (hu1 : u < 1) :
    (0.02 ≤ ornamentSpeed u ∧ ornamentSpeed u ≤ 0.07) ∧
    (0 < ornamentSpeed u ∧ ornamentSpeed u < 1) ∧
    ornamentStep p target (ornamentSpeed u) =
      (p.1 * (1 - ornamentSpeed u) + target.1 * ornamentSpeed u,
       p.2.1 * (1 - ornamentSpeed u) + target.2.1 * ornamentSpeed u,
       p.2.2 * (1 - ornamentSpeed u) + target.2.2 * ornamentSpeed u) ∧
    ((ornamentStep p target (ornamentSpeed u)).1 - target.1
        = (1 - ornamentSpeed u) * (p.1 - target.1) ∧
     (ornamentStep p target (ornamentSpeed u)).2.1 - target.2.1
        = (1 - ornamentSpeed u) * (p.2.1 - target.2.1) ∧
     (ornamentStep p target (ornamentSpeed u)).2.2 - target.2.2
        = (1 - ornamentSpeed u) * (p.2.2 - target.2.2)) ∧
    distSq (ornamentStep p target (ornamentSpeed u)) target
      = (1 - ornamentSpeed u) ^ 2 * distSq p target := by
  unfold ornamentStep vector3Lerp ornamentSpeed distSq
  refine ⟨⟨by nlinarith, by nlinarith⟩, ⟨by nlinarith, by nlinarith⟩,
          by simp only [Prod.mk.injEq]; exact ⟨by ring, by ring, by ring⟩,
          ⟨by ring, by ring, by ring⟩, by ring⟩

/-- Witness for C10 at `u = 1/2`, `p = (0,0,0)`, `target = (1,2,3)`. -/
theorem ornamentStep_props_witness :
    (0 : ℚ) ≤ 1/2 ∧ (1/2 : ℚ) < 1 ∧
    ((0.02 ≤ ornamentSpeed (1/2) ∧ ornamentSpeed (1/2) ≤ 0.07) ∧
     (0 < ornamentSpeed (1/2) ∧ ornamentSpeed (1/2) < 1) ∧
     ornamentStep (0, 0, 0) (1, 2, 3) (ornamentSpeed (1/2)) =
       ((0 : ℚ) * (1 - ornamentSpeed (1/2)) + 1 * ornamentSpeed (1/2),
        (0 : ℚ) * (1 - ornamentSpeed (1/2)) + 2 * ornamentSpeed (1/2),
        (0 : ℚ) * (1 - ornamentSpeed (1/2)) + 3 * ornamentSpeed (1/2)) ∧
     ((ornamentStep ((0 : ℚ), (0 : ℚ), (0 : ℚ)) (1, 2, 3) (ornamentSpeed (1/2))).1 - 1
         = (1 - ornamentSpeed (1/2)) * (0 - 1) ∧
      (ornamentStep ((0 : ℚ), (0 : ℚ), (0 : ℚ)) (1, 2, 3) (ornamentSpeed (1/2))).2.1 - 2
         = (1 - ornamentSpeed (1/2)) * (0 - 2) ∧
      (ornamentStep ((0 : ℚ), (0 : ℚ), (0 : ℚ)) (1, 2, 3) (ornamentSpeed (1/2))).2.2 - 3
         = (1 - ornamentSpeed (1/2)) * (0 - 3)) ∧
     distSq (ornamentStep (0, 0, 0) (1, 2, 3) (ornamentSpeed (1/2))) (1, 2, 3)
       = (1 - ornamentSpeed (1/2)) ^ 2 * distSq (0, 0, 0) (1, 2, 3)) :=
  ⟨by norm_num, by norm_num,
   ornamentStep_props (1/2) (0, 0, 0) (1, 2, 3) (by norm_num) (by norm_num)⟩

/-- C3 counterexample: at global progress 3/4 (inside [0,1]), the particle
formed at y = 6 (top of the tree) has already settled (local progress = 1)
while the particle formed at y = -6 (bottom) has not: the smaller-y particle
settles strictly LATER, refuting "smaller y settles no later". -/
theorem settle_order_counterexample :
    localProgressF (6 : ℚ) (3/4) = 1 ∧ localProgressF (-6 : ℚ) (3/4) < 1 :=
  ⟨smoothstep01_eq_one_of (by unfold progressArgF delayF; norm_num),
   smoothstep01_lt_one_of (by unfold progressArgF delayF; norm_num)⟩

/-- C3 (amended): for particles whose formed y is ≥ -10 (so the per-particle
delay `y*0.05 + 0.5` is nonnegative — all generated tree positions have
y ∈ [-6,6]), the settling order is the REVERSE of the claim: if the particle
with smaller formed y has settled (local progress = 1) at some global
progress, so has the particle with greater formed y, i.e. higher particles
settle no later.  The bottom-up staggering applies to the transition START:
if the higher particle has started moving (local progress > 0), so has the
lower one. -/
theorem settle_start_order (y1 y2 t : ℚ) (hy1 : -10 ≤ y1) (h12 : y1 ≤ y2) :
    (localProgressF y1 t = 1 → localProgressF y2 t = 1) ∧
    (0 < localProgressF y2 t → 0 < localProgressF y1 t) := by
  have hd1 : (0 : ℚ) ≤ delayF y1 := by unfold delayF; nlinarith
  have hd12 : delayF y1 ≤ delayF y2 := by unfold delayF; nlinarith
  constructor
  · intro h1
    have harg1 : (1 : ℚ) ≤ progressArgF y1 t := by
      by_contra hc
      push_neg at hc
      exact absurd h1 (ne_of_lt (smoothstep01_lt_one_of hc))
    exact smoothstep01_eq_one_of (argOne_le_mono hd1 hd12 harg1)
  · intro h2
    have harg2 : (0 : ℚ) < progressArgF y2 t := by
      by_contra hc
      push_neg at hc
      exact h2.ne' (smoothstep01_eq_zero_of hc)
    exact smoothstep01_pos_of (argPos_mono hd1 hd12 harg2)

/-- Witness for C3 (amended) at y1 = -6, y2 = 6, t = 9/10. -/
theorem settle_start_order_witness :
    (-10 : ℚ) ≤ -6 ∧ (-6 : ℚ) ≤ 6 ∧
    ((localProgressF (-6 : ℚ) (9/10) = 1 → localProgressF (6 : ℚ) (9/10) = 1) ∧
     (0 < localProgressF (6 : ℚ) (9/10) → 0 < localProgressF (-6 : ℚ) (9/10))) :=
  ⟨by norm_num, by norm_num, settle_start_order (-6) 6 (9/10) (by norm_num) (by norm_num)⟩

/-- C4 counterexample: endpoint correctness fails for a formed position with
y = -20, whose delay is `-20*0.05 + 0.5 = -0.5 < 0`: at globalProgress = 0
the blend of s = (0,0,0) and f = (0,-20,0) is (0, -35/2, 0) ≠ s. -/
theorem blend_endpoint_counterexample :
    blendF ((0 : ℚ), 0, 0) ((0 : ℚ), -20, 0) 0 ≠ ((0 : ℚ), 0, 0) := by
  intro h
  have hy : mixF (0 : ℚ) (-20) (easeOutCubicF (localProgressF (-20 : ℚ) 0)) = 0 :=
    congrArg (fun v => v.2.1) h
  rw [show localProgressF (-20 : ℚ) 0 = 1/2 from by
        norm_num [localProgressF, progressArgF, delayF, smoothstepF, hermiteF, clampF]] at hy
  norm_num [mixF, easeOutCubicF] at hy

/-- C4 (amended): endpoint correctness of the blend — `blend(s, f, 0) = s`
and `blend(s, f, 1) = f` — holds for every scatter position and every formed
position whose y component is at least -10 (equivalently, whose per-particle
delay is nonnegative); every generated tree position satisfies this, its y
lying in [-6, 6].  The formed height and the random seed do not enter the
blend in the source, so the property holds for all of them vacuously. -/
theorem blend_endpoints (s f : ℚ × ℚ × ℚ) (hf : -10 ≤ f.2.1) :
    blendF s f 0 = s ∧ blendF s f 1 = f := by
  obtain ⟨s1, s2, s3⟩ := s
  obtain ⟨f1, f2, f3⟩ := f
  have hf2 : (-10 : ℚ) ≤ f2 := hf
  have h0 : localProgressF f2 0 = 0 :=
    smoothstep01_eq_zero_of (show progressArgF f2 0 ≤ 0 from by
      unfold progressArgF delayF; nlinarith)
  have h1 : localProgressF f2 1 = 1 :=
    smoothstep01_eq_one_of (show (1 : ℚ) ≤ progressArgF f2 1 from by
      unfold progressArgF delayF; nlinarith)
  refine ⟨?_, ?_⟩
  · show (mixF s1 f1 (easeOutCubicF (localProgressF f2 0)),
          mixF s2 f2 (easeOutCubicF (localProgressF f2 0)),
          mixF s3 f3 (easeOutCubicF (localProgressF f2 0))) = (s1, s2, s3)
    rw [h0]
    simp only [easeOutCubicF, mixF, Prod.mk.injEq]
    norm_num
  · show (mixF s1 f1 (easeOutCubicF (localProgressF f2 1)),
          mixF s2 f2 (easeOutCubicF (localProgressF f2 1)),
          mixF s3 f3 (easeOutCubicF (localProgressF f2 1))) = (f1, f2, f3)
    rw [h1]
    simp only [easeOutCubicF, mixF, Prod.mk.injEq]
    norm_num

/-- Witness for C4 (amended) at s = (1,2,3), f = (4,5,6). -/
theorem blend_endpoints_witness :
    (-10 : ℚ) ≤ ((4 : ℚ), (5 : ℚ), (6 : ℚ)).2.1 ∧
    (blendF ((1 : ℚ), 2, 3) ((4 : ℚ), 5, 6) 0 = ((1 : ℚ), 2, 3) ∧
     blendF ((1 : ℚ), 2, 3) ((4 : ℚ), 5, 6) 1 = ((4 : ℚ), 5, 6)) :=
  ⟨by norm_num, blend_endpoints (1, 2, 3) (4, 5, 6) (by norm_num)⟩

/-- C9: whenever the progress uniform is at most 0.8, the breathing branch
`if (uProgress > 0.8)` is inactive, so the per-particle position computed by
the foliage vertex shader depends only on aScatterPos, aTreePos and
uProgress: evaluations agreeing on those three agree on the final position
regardless of uTime, aRandom, aSize and aColorType. -/
theorem shaderFinalPos_noninterference (s f : ℝ × ℝ × ℝ)
    (p t1 t2 r1 r2 sz1 sz2 c1 c2 : ℝ) (hp : p ≤ 0.8) :
    shaderFinalPos s f p t1 r1 sz1 c1 = shaderFinalPos s f p t2 r2 sz2 c2 := by
  unfold shaderFinalPos
  rw [if_neg (not_lt.mpr hp), if_neg (not_lt.mpr hp)]

/-- Witness for C9 at p = 1/2 and two disagreeing time/seed/size/colour
assignments. -/
theorem shaderFinalPos_noninterference_witness :
    (1/2 : ℝ) ≤ 0.8 ∧
    shaderFinalPos (1, 2, 3) (4, 5, 6) (1/2) 0 0 0 0 =
      shaderFinalPos (1, 2, 3) (4, 5, 6) (1/2) 9 (1/3) 7 2 :=
  ⟨by norm_num,
   shaderFinalPos_noninterference (1, 2, 3) (4, 5, 6) (1/2) 0 9 0 (1/3) 0 7 0 2 (by norm_num)⟩

lemma jadd_fin (x y : ℝ) : jadd (.fin x) (.fin y) = .fin (x + y) := rfl

lemma jadd_nan_left (b : JSVal) : jadd .nan b = .nan := by cases b <;> rfl

lemma jneg_fin (x : ℝ) : jneg (.fin x) = .fin (-x) := rfl

lemma jsub_fin (x y : ℝ) : jsub (.fin x) (.fin y) = .fin (x - y) :=
  congrArg JSVal.fin (by ring)

lemma jsub_fin_nan (x : ℝ) : jsub (.fin x) .nan = .nan := rfl

lemma jmul_fin (x y : ℝ) : jmul (.fin x) (.fin y) = .fin (x * y) := rfl

lemma jmul_nan_left (b : JSVal) : jmul .nan b = .nan := by cases b <;> rfl

lemma jmul_fin_nan (x : ℝ) : jmul (.fin x) .nan = .nan := rfl

lemma jdiv_fin_of_ne (x y : ℝ) (hy : y ≠ 0) : jdiv (.fin x) (.fin y) = .fin (x / y) := by
  simp only [jdiv]
  rw [if_neg hy]

lemma jdiv_zero_zero : jdiv (.fin 0) (.fin 0) = .nan := by
  simp [jdiv]

lemma jpow12_nan : jpow12 .nan = .nan := rfl

lemma jsin_fin (x : ℝ) : jsin (.fin x) = .fin (Real.sin x) := rfl

lemma jcos_fin (x : ℝ) : jcos (.fin x) = .fin (Real.cos x) := rfl

/-- Evaluation of `randomOnTree` at `height = 0` with the full band `[0,1]`:
`y = 0`, so `percentage = 1 - 0/0 = NaN`, which propagates through
`Math.pow` and the radius into the x and z coordinates, while the returned
y coordinate is `0 - 0/2 = 0`. -/
lemma randomOnTree_height_zero_eval (rB u th : ℝ) :
    randomOnTree (.fin 0) (.fin rB) (.fin 0) (.fin 1) (.fin u) (.fin th)
      = (JSVal.nan, JSVal.fin 0, JSVal.nan) := by
  unfold randomOnTree jpi
  norm_num [jmul_fin, jadd_fin, jsub_fin, jsub_fin_nan, jadd_nan_left, jmul_nan_left,
    jmul_fin_nan, jdiv_zero_zero, jpow12_nan, jsin_fin, jcos_fin,
    jdiv_fin_of_ne _ _ (two_ne_zero' ℝ)]

/-- The y coordinate returned by `randomOnTree` for a finite height and band:
`Math.random() * range + minH - height / 2`, independent of the base radius
and the azimuth draw. -/
lemma randomOnTree_y (h mn mx u : ℝ) (radiusBase uTheta : JSVal) :
    (randomOnTree (.fin h) radiusBase (.fin mn) (.fin mx) (.fin u) uTheta).2.1
      = .fin (u * (h * mx - h * mn) + h * mn - h / 2) := by
  unfold randomOnTree
  simp only [jmul_fin, jadd_fin, jsub_fin, jdiv_fin_of_ne _ _ (two_ne_zero' ℝ)]

/-- C5 counterexample: `randomOnTree` called with `height = 0` (and base
radius 9/2, full band) produces a NaN x coordinate at the concrete draws
`uY = 1/2`, `uTheta = 1/3`: the geometry is not a well-defined ring at
y = 0, and the generator does produce NaN. -/
theorem randomOnTree_nan_counterexample :
    (randomOnTree (.fin 0) (.fin (9/2)) (.fin 0) (.fin 1) (.fin (1/2)) (.fin (1/3))).1
      = JSVal.nan :=
  congrArg Prod.fst (randomOnTree_height_zero_eval (9/2) (1/2) (1/3))

/-- C5 (amended): both generators are pure total functions that never crash,
but `randomOnTree` with `height = 0` does produce NaN: `y = 0` forces the
JavaScript division `0/0 = NaN` inside `percentage`, so for every base
radius and every pair of random draws the returned point is
`(NaN, 0, NaN)` — collapsed to `y = 0`, with NaN x and z instead of a
well-defined ring. -/
theorem randomOnTree_height_zero_total_but_nan (rB u th : ℝ) :
    randomOnTree (.fin 0) (.fin rB) (.fin 0) (.fin 1) (.fin u) (.fin th)
      = (JSVal.nan, JSVal.fin 0, JSVal.nan) :=
  randomOnTree_height_zero_eval rB u th

/-- C6 counterexample: particle-pool generation with the malformed
configuration `height = 0` does not fail fast — it silently returns a tree
position whose x coordinate is NaN. -/
theorem generatePool_silent_nan_counterexample :
    (generateParticleTreePos (.fin 0) (.fin (9/2)) (.fin 0) (.fin 0)).1 = JSVal.nan :=
  congrArg Prod.fst (randomOnTree_height_zero_eval (9/2) 0 0)

/-- C6 (amended): malformed configuration is NOT validated and generation
never raises a configuration error: a particle count ≤ 0 silently yields an
empty pool, and a zero tree height silently yields tree positions with NaN
x and z coordinates (silent NaN rather than fail-fast). -/
theorem generatePool_no_failfast (count : ℤ) (hc : count ≤ 0)
    (tH tR : JSVal) (uY uTheta : ℕ → JSVal) (rB u th : ℝ) :
    generatePoolTreePos count tH tR uY uTheta = [] ∧
    generateParticleTreePos (.fin 0) (.fin rB) (.fin u) (.fin th)
      = (JSVal.nan, JSVal.fin 0, JSVal.nan) := by
  constructor
  · unfold generatePoolTreePos
    rw [Int.toNat_of_nonpos hc]
    simp
  · exact randomOnTree_height_zero_eval rB u th

/-- Witness for C6 at `count = -3` and concrete draw streams. -/
theorem generatePool_no_failfast_witness :
    (-3 : ℤ) ≤ 0 ∧
    (generatePoolTreePos (-3) (.fin 12) (.fin (9/2)) (fun _ => .fin 0) (fun _ => .fin 0)
        = [] ∧
     generateParticleTreePos (.fin 0) (.fin 1) (.fin 0) (.fin 0)
        = (JSVal.nan, JSVal.fin 0, JSVal.nan)) :=
  ⟨by norm_num,
   generatePool_no_failfast (-3) (by norm_num) (.fin 12) (.fin (9/2))
     (fun _ => .fin 0) (fun _ => .fin 0) 1 0 0⟩

/-- C7: for every height h > 0 and draw u ∈ [0,1), the formation point
generated with the full band (`heightRatioMin = 0`, `heightRatioMax = 1`)
has its y coordinate in `[-h/2, h/2]`; and with arguments
`(12, 4.5, 0, 0.4)` the returned y coordinate is ≤ -1.2 (the recentered
bottom-40% band).  The base radius and azimuth draw are arbitrary `JSVal`s:
the y coordinate does not depend on them. -/
theorem randomOnTree_y_range (h u u2 : ℝ) (rB rB2 th th2 : JSVal)
    (hh : 0 < h) (hu0 : 0 ≤ u) (hu1 : u < 1) (hv0 : 0 ≤ u2) (hv1 : u2 < 1) :
    ((randomOnTree (.fin h) rB (.fin 0) (.fin 1) (.fin u) th).2.1
        = JSVal.fin (u * (h * 1 - h * 0) + h * 0 - h / 2) ∧
     -(h / 2) ≤ u * (h * 1 - h * 0) + h * 0 - h / 2 ∧
     u * (h * 1 - h * 0) + h * 0 - h / 2 ≤ h / 2) ∧
    ((randomOnTree (.fin 12) rB2 (.fin 0) (.fin 0.4) (.fin u2) th2).2.1
        = JSVal.fin (u2 * (12 * 0.4 - 12 * 0) + 12 * 0 - 12 / 2) ∧
     u2 * (12 * 0.4 - 12 * 0) + 12 * 0 - 12 / 2 ≤ -1.2) := by
  refine ⟨⟨randomOnTree_y h 0 1 u rB th, ?_, ?_⟩,
          ⟨randomOnTree_y 12 0 0.4 u2 rB2 th2, ?_⟩⟩
  · nlinarith [mul_nonneg hu0 hh.le]
  · nlinarith [mul_pos (show (0 : ℝ) < 1 - u by linarith) hh]
  · nlinarith

/-- Witness for C7 at `h = 12`, `u = u2 = 0`, concrete radius and azimuth. -/
theorem randomOnTree_y_range_witness :
    (0 : ℝ) < 12 ∧ (0 : ℝ) ≤ 0 ∧ (0 : ℝ) < 1 ∧
    (((randomOnTree (.fin 12) (.fin (9/2)) (.fin 0) (.fin 1) (.fin 0) (.fin 0)).2.1
         = JSVal.fin (0 * (12 * 1 - 12 * 0) + 12 * 0 - 12 / 2) ∧
      -(12 / 2 : ℝ) ≤ 0 * (12 * 1 - 12 * 0) + 12 * 0 - 12 / 2 ∧
      (0 : ℝ) * (12 * 1 - 12 * 0) + 12 * 0 - 12 / 2 ≤ 12 / 2) ∧
     ((randomOnTree (.fin 12) (.fin (9/2)) (.fin 0) (.fin 0.4) (.fin 0) (.fin 0)).2.1
         = JSVal.fin (0 * (12 * 0.4 - 12 * 0) + 12 * 0 - 12 / 2) ∧
      (0 : ℝ) * (12 * 0.4 - 12 * 0) + 12 * 0 - 12 / 2 ≤ -1.2)) :=
  ⟨by norm_num, by norm_num, by norm_num,
   randomOnTree_y_range 12 0 0 (.fin (9/2)) (.fin (9/2)) (.fin 0) (.fin 0)
     (by norm_num) (by norm_num) (by norm_num) (by norm_num) (by norm_num)⟩

/-- C8: for every radius ≥ 0 and every random draw (azimuth and polar draws
arbitrary, radius draw w ∈ [0,1)), the scatter point generated by
`randomInSphere` has Euclidean norm at most `radius`. -/
theorem randomInSphere_norm_le (radius u v w : ℝ)
    (hr : 0 ≤ radius) (hw0 : 0 ≤ w) (hw1 : w < 1) :
    length3 (randomInSphere radius u v w) ≤ radius := by
  have hcu0 : (0 : ℝ) ≤ w ^ ((1 : ℝ)/3) := Real.rpow_nonneg hw0 _
  have hcu1 : w ^ ((1 : ℝ)/3) ≤ 1 := Real.rpow_le_one hw0 hw1.le (by norm_num)
  have hR0 : 0 ≤ w ^ ((1 : ℝ)/3) * radius := mul_nonneg hcu0 hr
  have hs := Real.sin_sq_add_cos_sq (2 * Real.pi * u)
  have hp := Real.sin_sq_add_cos_sq (Real.arccos (2 * v - 1))
  have hsq : (w ^ ((1 : ℝ)/3) * radius * Real.sin (Real.arccos (2 * v - 1)) *
                Real.cos (2 * Real.pi * u)) ^ 2 +
             (w ^ ((1 : ℝ)/3) * radius * Real.sin (Real.arccos (2 * v - 1)) *
                Real.sin (2 * Real.pi * u)) ^ 2 +
             (w ^ ((1 : ℝ)/3) * radius * Real.cos (Real.arccos (2 * v - 1))) ^ 2
             = (w ^ ((1 : ℝ)/3) * radius) ^ 2 := by
    linear_combination ((w ^ ((1 : ℝ)/3) * radius) * Real.sin (Real.arccos (2 * v - 1))) ^ 2 * hs
      + (w ^ ((1 : ℝ)/3) * radius) ^ 2 * hp
  show Real.sqrt
      ((w ^ ((1 : ℝ)/3) * radius * Real.sin (Real.arccos (2 * v - 1)) *
          Real.cos (2 * Real.pi * u)) ^ 2 +
       (w ^ ((1 : ℝ)/3) * radius * Real.sin (Real.arccos (2 * v - 1)) *
          Real.sin (2 * Real.pi * u)) ^ 2 +
       (w ^ ((1 : ℝ)/3) * radius * Real.cos (Real.arccos (2 * v - 1))) ^ 2) ≤ radius
  rw [hsq, Real.sqrt_sq hR0]
  exact mul_le_of_le_one_left hr hcu1

/-- Witness for C8 at `radius = 1`, `u = v = w = 0`. -/
theorem randomInSphere_norm_le_witness :
    (0 : ℝ) ≤ 1 ∧ (0 : ℝ) ≤ 0 ∧ (0 : ℝ) < 1 ∧
    length3 (randomInSphere 1 0 0 0) ≤ 1 :=
  ⟨by norm_num, by norm_num, by norm_num,
   randomInSphere_norm_le 1 0 0 0 (by norm_num) (by norm_num) (by norm_num)⟩
